import Mathlib

/-!
Verification of the stockfish_mcp repository against its design document.

Shallow embedding of:
- the FEN position validator (src/stockfish_mcp/fen_validator.py),
- the engine lifecycle manager (src/stockfish_manager.py),
- the game state record (src/game_state.py),
- the tool layer (src/server.py).

Python strings are modelled as lists of characters where character-level
behaviour matters (the validator), and as Lean strings elsewhere. Raised
exceptions are modelled as explicit error values.
-/

namespace StockfishMcp

/-- Python string, modelled as its list of characters. -/
abbrev PyStr := List Char

/-- Helper for pySplit: accumulates the current chunk in reverse. -/
def pySplitAux (sep : Char) : PyStr → PyStr → List PyStr
  | [], acc => [acc.reverse]
  | c :: cs, acc =>
    if c == sep then acc.reverse :: pySplitAux sep cs []
    else pySplitAux sep cs (c :: acc)

/-- Python str.split with an explicit one-character separator: every occurrence
of the separator ends a chunk, so the result is always non-empty and adjacent
separators yield empty chunks, exactly as in CPython. -/
def pySplit (sep : Char) (s : PyStr) : List PyStr :=
  pySplitAux sep s []

/-- ASCII lowering of one character, as Python str.lower acts on ASCII. -/
def lowerChar (c : Char) : Char :=
  if 'A' ≤ c ∧ c ≤ 'Z' then Char.ofNat (c.toNat + 32) else c

/-- Python str.lower restricted to the ASCII inputs the server handles. -/
def pyLower (s : String) : String :=
  String.mk (s.data.map lowerChar)

namespace FenValidator

/-- Outcome of a validator call: a normal return, a raised FenValidationError
carrying its message, or a raised IndexError (an out-of-bounds string index,
which is not a FenValidationError). -/
inductive VResult where
  | ok : VResult
  | fenError : String → VResult
  | indexError : VResult
deriving DecidableEq

/-- FenValidator._validate_empty_fen: rejects the empty string. -/
def validate_empty_fen (fen : PyStr) : VResult :=
  if fen = [] then .fenError "FEN is empty" else .ok

/-- FenValidator._validate_is_string: the embedding types every input as a
string, so the isinstance check always passes. -/
def validate_is_string (_fen : PyStr) : VResult := .ok

/-- FenValidator._validate_field_count: fen.split on a space must give exactly
6 fields. -/
def validate_field_count (fen : PyStr) : VResult :=
  let n := (pySplit ' ' fen).length
  if n ≠ 6 then
    .fenError s!"Invalid FEN string: The number of fields is {n}. 6 fields required"
  else .ok

/-- FenValidator._validate_board_ranks: the first field must split on a slash
into exactly 8 ranks. -/
def validate_board_ranks (fen : PyStr) : VResult :=
  let ranks := pySplit '/' ((pySplit ' ' fen).headD [])
  let n := ranks.length
  if n ≠ 8 then
    .fenError s!"Invalid FEN string: The number of ranks is {n}. Must be 8 ranks."
  else .ok

/-- Square count of one rank: each digit contributes its value, every other
character contributes one, following the loop in _validate_rank_squares. -/
def squareCount : PyStr → Nat
  | [] => 0
  | c :: cs => (if c.isDigit then c.toNat - 48 else 1) + squareCount cs

/-- The per-rank loop of _validate_rank_squares, raising at the first rank
whose square count is not 8. -/
def checkRankSquares : List PyStr → VResult
  | [] => .ok
  | r :: rs =>
    let n := squareCount r
    if n ≠ 8 then
      .fenError s!"Invalid FEN string: The number of squares on a rank is {n}. Must be 8 squares."
    else checkRankSquares rs

/-- FenValidator._validate_rank_squares. -/
def validate_rank_squares (fen : PyStr) : VResult :=
  checkRankSquares (pySplit '/' ((pySplit ' ' fen).headD []))

/-- FenValidator._validate_en_passent_rank: reads field 3; a value other than
a dash is indexed at position 1 without a length guard, so a one-character
field raises IndexError. -/
def validate_en_passent_rank (fen : PyStr) : VResult :=
  match (pySplit ' ' fen).get? 3 with
  | none => .indexError
  | some ep =>
    if ep = ['-'] then .ok
    else
      match ep.get? 1 with
      | none => .indexError
      | some c =>
        if c ≠ '3' ∧ c ≠ '6' then
          .fenError s!"Invalid FEN string: The en passant rank is {c}. Must be 3 or 6."
        else .ok

/-- Exception-style sequencing: the first non-ok result short-circuits. -/
def vseq (a b : VResult) : VResult :=
  match a with
  | .ok => b
  | e => e

/-- FenValidator.validate: the exact sequence of checks the source method runs,
each short-circuiting on first failure. The Python method returns True on
success; success is VResult.ok here. No side-to-move, castling, move-counter,
piece-character or king-count check appears in the source method. -/
def validate (fen : PyStr) : VResult :=
  vseq (validate_empty_fen fen)
    (vseq (validate_is_string fen)
      (vseq (validate_field_count fen)
        (vseq (validate_board_ranks fen)
          (vseq (validate_rank_squares fen)
            (validate_en_passent_rank fen)))))

/-- FenValidator.is_valid: wraps validate in try/except FenValidationError and
returns false on a caught validation error; any other exception, such as the
IndexError from the en passant check, propagates to the caller. -/
def is_valid (fen : PyStr) : Except String Bool :=
  match validate fen with
  | .ok => .ok true
  | .fenError _ => .ok false
  | .indexError => .error "IndexError"

/-- FenValidator.get_validation_errors: the method body is the single
statement pass, so the Python call returns None for every input; modelled as
the constant none. -/
def get_validation_errors (_fen : PyStr) : Option (List String) := none

end FenValidator

namespace StockfishManager

/-- Result of a Python call: a normal return or a propagated exception. -/
inductive R (α : Type) where
  | ok : α → R α
  | err : R α
deriving DecidableEq

/-- World state of one StockfishManager instance together with the operating
system it spawns processes into. engine is the manager's process handle
(self.engine), first_run its lazy-start flag, nextPid the pid the next spawn
would create, live the pids of currently running engine processes, script the
outcomes the environment has scheduled for upcoming engine interactions
(false means the interaction fails; an exhausted script means success), and
the three counters are ghost instrumentation counting spawns, pings and
searches. Modelling assumption, matching the exception types the source
catches (EngineTerminatedError/EngineError): an engine interaction fails
exactly when the underlying process has died, so a failed interaction removes
its process from live. -/
structure W where
  engine : Option Nat
  first_run : Bool
  nextPid : Nat
  live : List Nat
  script : List Bool
  spawnCount : Nat
  pingCount : Nat
  searchCount : Nat
deriving DecidableEq

/-- Pops the next scheduled interaction outcome; an empty script means the
interaction succeeds. -/
def takeOutcome (w : W) : Bool × W :=
  match w.script with
  | [] => (true, w)
  | b :: bs => (b, { w with script := bs })

/-- chess.engine.SimpleEngine.popen_uci: on success a fresh process starts and
its handle is returned; on failure no process is created and the exception
propagates. -/
def spawnPrim (w : W) : R Nat × W :=
  match takeOutcome w with
  | (true, w1) =>
    (.ok w1.nextPid,
      { w1 with
          nextPid := w1.nextPid + 1
          live := w1.nextPid :: w1.live
          spawnCount := w1.spawnCount + 1 })
  | (false, w1) => (.err, w1)

/-- One engine interaction against process p: on failure the process is dead
and leaves the live set. -/
def interact (p : Nat) (w : W) : R Unit × W :=
  match takeOutcome w with
  | (true, w1) => (.ok (), w1)
  | (false, w1) => (.err, { w1 with live := w1.live.erase p })

/-- engine.ping(). -/
def pingPrim (p : Nat) (w : W) : R Unit × W :=
  interact p { w with pingCount := w.pingCount + 1 }

/-- engine.analyse / engine.play: the search call itself. -/
def searchPrim (p : Nat) (w : W) : R Unit × W :=
  interact p { w with searchCount := w.searchCount + 1 }

/-- StockfishManager._ensure_engine: if the handle is absent or first_run is
set, popen a process, assign the handle, then ping it; on any failure the
handle is cleared and the exception re-raised; on success first_run is
cleared. -/
def ensure_engine (w : W) : R Unit × W :=
  match w.engine, w.first_run with
  | some _, false => (.ok (), w)
  | _, _ =>
    match spawnPrim w with
    | (.err, w1) => (.err, { w1 with engine := none })
    | (.ok p, w1) =>
      match pingPrim p { w1 with engine := some p } with
      | (.ok _, w2) => (.ok (), { w2 with first_run := false })
      | (.err, w2) => (.err, { w2 with engine := none })

/-- StockfishManager._restart_engine_if_needed: ping the held engine; on a
caught engine error discard the handle and run _ensure_engine again. -/
def restart_engine_if_needed (w : W) : R Unit × W :=
  match w.engine with
  | none => (.ok (), w)
  | some p =>
    match pingPrim p w with
    | (.ok _, w1) => (.ok (), w1)
    | (.err, w1) => ensure_engine { w1 with engine := none }

/-- Shared body of analyze_position, get_best_move and get_top_moves, whose
source differs only in how the search result is post-processed (abstracted
away here): ensure the engine, probe and restart if dead, run the search; on a
caught engine error during the search discard the handle, ensure the engine
and retry the search once, the retry being outside any try block. The
unreachable defensive none branches model Python dereferencing a None handle,
which would raise. -/
def engineCall (w : W) : R Unit × W :=
  match ensure_engine w with
  | (.err, w1) => (.err, w1)
  | (.ok _, w1) =>
    match restart_engine_if_needed w1 with
    | (.err, w2) => (.err, w2)
    | (.ok _, w2) =>
      match w2.engine with
      | none => (.err, w2)
      | some p =>
        match searchPrim p w2 with
        | (.ok _, w3) => (.ok (), w3)
        | (.err, w3) =>
          match ensure_engine { w3 with engine := none } with
          | (.err, w4) => (.err, w4)
          | (.ok _, w4) =>
            match w4.engine with
            | none => (.err, w4)
            | some q =>
              match searchPrim q w4 with
              | (.ok _, w5) => (.ok (), w5)
              | (.err, w5) => (.err, w5)

/-- StockfishManager.analyze_position, lifecycle part. -/
def analyze_position (w : W) : R Unit × W := engineCall w

/-- StockfishManager.get_best_move, lifecycle part. -/
def get_best_move (w : W) : R Unit × W := engineCall w

/-- StockfishManager.get_top_moves, lifecycle part. -/
def get_top_moves (w : W) : R Unit × W := engineCall w

/-- StockfishManager.close: if a handle is held, engine.quit() is attempted,
any exception is swallowed, and in either case the process terminates and the
handle is cleared in the finally block. -/
def close (w : W) : R Unit × W :=
  match w.engine with
  | none => (.ok (), w)
  | some p =>
    match takeOutcome w with
    | (_, w1) => (.ok (), { w1 with engine := none, live := w1.live.erase p })

/-- The public operations a caller can invoke on one manager instance. -/
inductive MOp where
  | analyze : MOp
  | bestMove : MOp
  | topMoves : MOp
  | closeOp : MOp
deriving DecidableEq

/-- Dispatch of one public operation. -/
def runOp : MOp → W → R Unit × W
  | .analyze, w => analyze_position w
  | .bestMove, w => get_best_move w
  | .topMoves, w => get_top_moves w
  | .closeOp, w => close w

/-- A whole call sequence against one manager instance. -/
def runSeq : List MOp → W → W
  | [], w => w
  | o :: os, w => runSeq os (runOp o w).2

/-- A freshly constructed manager in a fresh world: no handle, first_run set,
no live process, with the given scheduled interaction outcomes. -/
def init (script : List Bool) : W :=
  ⟨none, true, 0, [], script, 0, 0, 0⟩

/-- Lifecycle invariant: every live process is the one currently held (the
held handle may point at a dead process, but a previously held process is
never still alive), and a held handle implies the lazy-start flag is off. -/
def Inv (w : W) : Prop :=
  (w.live = [] ∨ ∃ p, w.engine = some p ∧ w.live = [p]) ∧
  (∀ p, w.engine = some p → w.first_run = false)

/-- A canonical running manager: handle on process p, next pid n. -/
def runningW (p n : Nat) (s : List Bool) : W :=
  ⟨some p, false, n, [p], s, 0, 0, 0⟩

end StockfishManager

/-- chess.WHITE is Python True. -/
def WHITE : Bool := true

/-- chess.BLACK is Python False. -/
def BLACK : Bool := false

/-- Interface of the external chess rules library (python-chess), which the
design document treats as a trusted external collaborator specified only at
its boundary: position parsing, move-notation parsing, legality, move
application and move rendering. Fallible library calls return Except, the
error carrying the exception message. -/
structure ChessLib (Board Move : Type) where
  defaultBoard : Board
  parseFen : String → Except String Board
  parseUci : String → Except String Move
  is_legal : Board → Move → Bool
  push : Board → Move → Board
  uci : Move → String

/-- GameState (src/game_state.py): current board, append-only move log,
engine side and difficulty. -/
structure GameState (Board Move : Type) where
  board : Board
  move_history : List Move
  ai_color : Bool
  difficulty : Int
deriving DecidableEq

/-- GameState.__init__: chess.Board(fen) if fen else chess.Board() — a None or
empty fen (both falsy) selects the default starting board; a parse failure is
re-raised as ValueError prefixed with Invalid FEN string. -/
def GameState.start {Board Move : Type} (lib : ChessLib Board Move)
    (ai_color : Bool) (difficulty : Int) (fen : Option String) :
    Except String (GameState Board Move) :=
  match fen with
  | none => .ok ⟨lib.defaultBoard, [], ai_color, difficulty⟩
  | some f =>
    if f = "" then .ok ⟨lib.defaultBoard, [], ai_color, difficulty⟩
    else
      match lib.parseFen f with
      | .error e => .error ("Invalid FEN string: " ++ e)
      | .ok b => .ok ⟨b, [], ai_color, difficulty⟩

/-- GameState.make_move: raise ValueError if the move is not legal on the
current board, otherwise push it and append it to the history. An error
return carries no new state, so the board and log of the caller's instance
are unchanged on failure. -/
def GameState.make_move {Board Move : Type} (lib : ChessLib Board Move)
    (g : GameState Board Move) (m : Move) : Except String (GameState Board Move) :=
  if lib.is_legal g.board m then
    .ok ⟨lib.push g.board m, g.move_history ++ [m], g.ai_color, g.difficulty⟩
  else
    .error ("Invalid move: " ++ lib.uci m)

namespace Server

/-- What one tool invocation yields at the transport boundary: a success
payload, a structured error dictionary, or an exception that escaped the tool
function uncaught. -/
inductive ToolOutcome where
  | ok : String → ToolOutcome
  | errPayload : String → ToolOutcome
  | raised : String → ToolOutcome
deriving DecidableEq

/-- True when the outcome is a success payload or a structured error
dictionary, false when an exception escaped the tool uncaught. -/
def handled : ToolOutcome → Bool
  | .raised _ => false
  | _ => true

/-- The server module's shared mutable state: the single current_game global,
None until the first start_game call. -/
structure ServerState (Board Move : Type) where
  current_game : Option (GameState Board Move)
deriving DecidableEq

/-- server.fen_validator: try chess.Board(fen), return True, except ValueError
return False. Always a boolean payload. -/
def fen_validator {B M : Type} (lib : ChessLib B M) (st : ServerState B M)
    (fen : String) : ToolOutcome × ServerState B M :=
  match lib.parseFen fen with
  | .ok _ => (.ok "true", st)
  | .error _ => (.ok "false", st)

/-- server.analyze_position: board = chess.Board(fen), then the manager call,
neither wrapped in try/except, so parse and engine errors escape the tool
uncaught. The manager's analysis (and the dictionary rendering of its result)
is abstracted as an Except-valued oracle on boards. -/
def analyze_position {B M : Type} (lib : ChessLib B M)
    (manager : B → Except String String) (st : ServerState B M) (fen : String) :
    ToolOutcome × ServerState B M :=
  match lib.parseFen fen with
  | .error e => (.raised e, st)
  | .ok b =>
    match manager b with
    | .error e => (.raised e, st)
    | .ok payload => (.ok payload, st)

/-- server.get_best_move: same unguarded parse-then-engine shape as
analyze_position. -/
def get_best_move {B M : Type} (lib : ChessLib B M)
    (manager : B → Except String String) (st : ServerState B M) (fen : String) :
    ToolOutcome × ServerState B M :=
  match lib.parseFen fen with
  | .error e => (.raised e, st)
  | .ok b =>
    match manager b with
    | .error e => (.raised e, st)
    | .ok payload => (.ok payload, st)

/-- server.get_top_moves: same unguarded parse-then-engine shape; the count
argument only shapes the payload, which the oracle abstracts. -/
def get_top_moves {B M : Type} (lib : ChessLib B M)
    (manager : B → Except String String) (st : ServerState B M) (fen : String)
    (_count : Int) : ToolOutcome × ServerState B M :=
  match lib.parseFen fen with
  | .error e => (.raised e, st)
  | .ok b =>
    match manager b with
    | .error e => (.raised e, st)
    | .ok payload => (.ok payload, st)

/-- server.start_game: chess.BLACK if ai_color.lower() == "black" else
chess.WHITE; the GameState constructor runs inside try/except ValueError and
a caught error becomes a structured error payload. -/
def start_game {B M : Type} (lib : ChessLib B M) (st : ServerState B M)
    (ai_color : String) (difficulty : Int) (fen : Option String) :
    ToolOutcome × ServerState B M :=
  match GameState.start lib (if pyLower ai_color = "black" then BLACK else WHITE)
      difficulty fen with
  | .ok g => (.ok ("Game started, ai_color " ++ ai_color), { st with current_game := some g })
  | .error e => (.errPayload e, st)

/-- server.record_opponent_move: a None current_game short-circuits to a
structured error; otherwise parse the UCI text and apply the move, catching
ValueError into a structured error. -/
def record_opponent_move {B M : Type} (lib : ChessLib B M) (st : ServerState B M)
    (move : String) : ToolOutcome × ServerState B M :=
  match st.current_game with
  | none => (.errPayload "No active game. Start a game first.", st)
  | some g =>
    match lib.parseUci move with
    | .error e => (.errPayload ("Invalid move: " ++ e), st)
    | .ok m =>
      match GameState.make_move lib g m with
      | .error e => (.errPayload ("Invalid move: " ++ e), st)
      | .ok g2 => (.ok "Move recorded", { st with current_game := some g2 })

/-- server.make_move: identical control flow to record_opponent_move with a
different success payload. -/
def make_move {B M : Type} (lib : ChessLib B M) (st : ServerState B M)
    (move : String) : ToolOutcome × ServerState B M :=
  match st.current_game with
  | none => (.errPayload "No active game. Start a game first.", st)
  | some g =>
    match lib.parseUci move with
    | .error e => (.errPayload ("Invalid move: " ++ e), st)
    | .ok m =>
      match GameState.make_move lib g m with
      | .error e => (.errPayload ("Invalid move: " ++ e), st)
      | .ok g2 => (.ok "Move made", { st with current_game := some g2 })

end Server

/-- Concrete instantiation of the external rules interface, used only to
evaluate the embedded tool layer at specific inputs: boards and moves are
strings, the string bad fails to parse, strings shorter than four characters
fail UCI parsing, and the move e2e5 is the designated illegal move. -/
def toyLib : ChessLib String String where
  defaultBoard := "startpos"
  parseFen := fun s => if s = "bad" then .error "parse error" else .ok s
  parseUci := fun s => if s.length < 4 then .error "uci error" else .ok s
  is_legal := fun _ m => m != "e2e5"
  push := fun b m => b ++ ";" ++ m
  uci := fun m => m

/-- A concrete game over toyLib in its initial position. -/
def g0 : GameState String String := ⟨"startpos", [], BLACK, 10⟩

/-- A concrete server state with no active game. -/
def st0 : Server.ServerState String String := ⟨none⟩

/-- A concrete server state holding an active game. -/
def st1 : Server.ServerState String String := ⟨some g0⟩

/-- An engine oracle that always answers. -/
def toyManagerOk : String → Except String String := fun _ => .ok "analysis"

/-- The standard starting position. -/
def fenStart : PyStr :=
  "rnbqkbnr/pppppppp/8/8/8/8/PPPPPPPP/RNBQKBNR w KQkq - 0 1".toList

/-- Only defect: side to move is x. -/
def fenBadColor : PyStr :=
  "rnbqkbnr/pppppppp/8/8/8/8/PPPPPPPP/RNBQKBNR x KQkq - 0 1".toList

/-- Only defect: duplicated castling right K. -/
def fenDupCastling : PyStr :=
  "rnbqkbnr/pppppppp/8/8/8/8/PPPPPPPP/RNBQKBNR w KKq - 0 1".toList

/-- Only defect: non-integer halfmove clock. -/
def fenBadCounter : PyStr :=
  "rnbqkbnr/pppppppp/8/8/8/8/PPPPPPPP/RNBQKBNR w KQkq - abc 1".toList

/-- Only defect: X is not a piece letter. -/
def fenBadPiece : PyStr :=
  "rnbqkbnr/pppppppp/8/8/8/8/PPPPPPPP/RNBQKBXR w KQkq - 0 1".toList

/-- Only defect: two black kings. -/
def fenTwoKings : PyStr :=
  "rnbqkknr/pppppppp/8/8/8/8/PPPPPPPP/RNBQKBNR w KQkq - 0 1".toList

/-- Only defect: one-character en passant field. -/
def fenShortEp : PyStr :=
  "rnbqkbnr/pppppppp/8/8/8/8/PPPPPPPP/RNBQKBNR w KQkq a 0 1".toList

namespace StockfishManager

/-- The invariant only reads the engine handle, the lazy-start flag and the
live set, so it transports along any step that preserves those fields. -/
theorem inv_of_fields {w1 w2 : W} (he : w2.engine = w1.engine)
    (hf : w2.first_run = w1.first_run) (hl : w2.live = w1.live)
    (h : Inv w1) : Inv w2 := by
  obtain ⟨h1, h2⟩ := h
  constructor
  · rw [he, hl]; exact h1
  · intro p hp
    rw [hf]
    exact h2 p (he ▸ hp)

/-- Under the invariant, erasing the held process from the live set empties
it. -/
theorem inv_erase {w : W} (h : Inv w) (p : Nat) (hp : w.engine = some p) :
    w.live.erase p = [] := by
  rcases h.1 with h1 | ⟨q, hq, hl⟩
  · rw [h1]; rfl
  · rw [hl]
    have : q = p := by rw [hp] at hq; exact (Option.some.injEq q p ▸ hq.symm)
    rw [this, List.erase_cons_head]

/-- A search interaction either succeeds, changing none of the three
invariant-relevant fields, or fails, erasing the searched process from the
live set. -/
theorem searchPrim_cases (p : Nat) (w : W) :
    (∃ w1, searchPrim p w = (.ok (), w1) ∧ w1.engine = w.engine ∧
      w1.first_run = w.first_run ∧ w1.live = w.live) ∨
    (∃ w1, searchPrim p w = (.err, w1) ∧ w1.engine = w.engine ∧
      w1.first_run = w.first_run ∧ w1.live = w.live.erase p) := by
  obtain ⟨e, fr, np, lv, sc, a, b, c⟩ := w
  cases sc with
  | nil => exact Or.inl ⟨_, rfl, rfl, rfl, rfl⟩
  | cons b1 bs =>
    cases b1 with
    | true => exact Or.inl ⟨_, rfl, rfl, rfl, rfl⟩
    | false => exact Or.inr ⟨_, rfl, rfl, rfl, rfl⟩

/-- _ensure_engine preserves the lifecycle invariant. -/
theorem inv_ensure {w : W} (h : Inv w) : Inv (ensure_engine w).2 := by
  obtain ⟨e, fr, np, lv, sc, a, b, c⟩ := w
  obtain ⟨h1, h2⟩ := h
  cases e with
  | some p =>
    cases fr with
    | false => exact ⟨h1, h2⟩
    | true => exact absurd (h2 p rfl) (by simp)
  | none =>
    have hlv : lv = [] := by
      rcases h1 with h1 | ⟨p, hp, _⟩
      · exact h1
      · exact Option.noConfusion hp
    subst hlv
    cases sc with
    | nil =>
      exact ⟨Or.inr ⟨np, rfl, rfl⟩, fun p _ => rfl⟩
    | cons b1 bs =>
      cases b1 with
      | true =>
        cases bs with
        | nil => exact ⟨Or.inr ⟨np, rfl, rfl⟩, fun p _ => rfl⟩
        | cons b2 bs2 =>
          cases b2 with
          | true => exact ⟨Or.inr ⟨np, rfl, rfl⟩, fun p _ => rfl⟩
          | false =>
            refine ⟨Or.inl ?_, fun p hp => Option.noConfusion hp⟩
            show (np :: []).erase np = []
            rw [List.erase_cons_head]
      | false => exact ⟨Or.inl rfl, fun p hp => Option.noConfusion hp⟩

/-- _restart_engine_if_needed preserves the lifecycle invariant. -/
theorem inv_restart {w : W} (h : Inv w) : Inv (restart_engine_if_needed w).2 := by
  obtain ⟨e, fr, np, lv, sc, a, b, c⟩ := w
  obtain ⟨h1, h2⟩ := h
  cases e with
  | none => exact ⟨h1, h2⟩
  | some p =>
    have hfr : fr = false := h2 p rfl
    subst hfr
    cases sc with
    | nil => exact ⟨h1, fun q _ => rfl⟩
    | cons b1 bs =>
      cases b1 with
      | true => exact ⟨h1, fun q _ => rfl⟩
      | false =>
        apply inv_ensure
        refine ⟨Or.inl ?_, fun q hq => Option.noConfusion hq⟩
        show lv.erase p = []
        rcases h1 with h1 | ⟨q, hq, hl⟩
        · rw [show lv = [] from h1]; rfl
        · have hqp : q = p := (Option.some.inj (show some p = some q from hq)).symm
          rw [show lv = [q] from hl, hqp, List.erase_cons_head]

/-- The shared analysis body preserves the lifecycle invariant. -/
theorem inv_engineCall {w : W} (h : Inv w) : Inv (engineCall w).2 := by
  unfold engineCall
  split
  case _ w1 heq =>
    have t := inv_ensure h
    rw [heq] at t
    exact t
  case _ u w1 heq =>
    have hw1 : Inv w1 := by have t := inv_ensure h; rw [heq] at t; exact t
    clear heq
    split
    case _ w2 heq2 =>
      have t := inv_restart hw1
      rw [heq2] at t
      exact t
    case _ v w2 heq2 =>
      have hw2 : Inv w2 := by have t := inv_restart hw1; rw [heq2] at t; exact t
      clear heq2
      split
      case _ => exact hw2
      case _ p hp =>
        split
        case _ u2 w3 heq3 =>
          rcases searchPrim_cases p w2 with ⟨w3x, hS, hSe, hSf, hSl⟩ | ⟨w3x, hS, hSe, hSf, hSl⟩
          · rw [heq3] at hS
            obtain rfl : w3x = w3 := (congrArg Prod.snd hS).symm
            exact inv_of_fields hSe hSf hSl hw2
          · rw [heq3] at hS
            exact absurd (congrArg Prod.fst hS) (by simp)
        case _ w3 heq3 =>
          rcases searchPrim_cases p w2 with ⟨w3x, hS, hSe, hSf, hSl⟩ | ⟨w3x, hS, hSe, hSf, hSl⟩
          · rw [heq3] at hS
            exact absurd (congrArg Prod.fst hS) (by simp)
          · rw [heq3] at hS
            obtain rfl : w3 = w3x := congrArg Prod.snd hS
            have hl3 : w3.live = [] := by rw [hSl]; exact inv_erase hw2 p hp
            have hInv3 : Inv { w3 with engine := none } :=
              ⟨Or.inl hl3, fun q hq => Option.noConfusion hq⟩
            split
            case _ w4 heq4 =>
              have t := inv_ensure hInv3
              rw [heq4] at t
              exact t
            case _ v2 w4 heq4 =>
              have hw4 : Inv w4 := by
                have t := inv_ensure hInv3
                rw [heq4] at t
                exact t
              clear heq4
              split
              case _ => exact hw4
              case _ q hq =>
                split
                case _ u4 w5 heq5 =>
                  rcases searchPrim_cases q w4 with ⟨w5x, hS2, hS2e, hS2f, hS2l⟩ | ⟨w5x, hS2, hS2e, hS2f, hS2l⟩
                  · rw [heq5] at hS2
                    obtain rfl : w5x = w5 := (congrArg Prod.snd hS2).symm
                    exact inv_of_fields hS2e hS2f hS2l hw4
                  · rw [heq5] at hS2
                    exact absurd (congrArg Prod.fst hS2) (by simp)
                case _ w5 heq5 =>
                  rcases searchPrim_cases q w4 with ⟨w5x, hS2, hS2e, hS2f, hS2l⟩ | ⟨w5x, hS2, hS2e, hS2f, hS2l⟩
                  · rw [heq5] at hS2
                    exact absurd (congrArg Prod.fst hS2) (by simp)
                  · rw [heq5] at hS2
                    obtain rfl : w5 = w5x := congrArg Prod.snd hS2
                    refine ⟨Or.inl ?_, fun r hr => ?_⟩
                    · rw [hS2l]
                      exact inv_erase hw4 q hq
                    · rw [hS2f]
                      refine hw4.2 r ?_
                      rw [hS2e] at hr
                      exact hr

/-- close preserves the lifecycle invariant. -/
theorem inv_close {w : W} (h : Inv w) : Inv (close w).2 := by
  obtain ⟨e, fr, np, lv, sc, a, b, c⟩ := w
  obtain ⟨h1, h2⟩ := h
  cases e with
  | none => exact ⟨h1, h2⟩
  | some p =>
    have herase : lv.erase p = [] := by
      rcases h1 with h1 | ⟨q, hq, hl⟩
      · rw [show lv = [] from h1]; rfl
      · have hqp : q = p := (Option.some.inj (show some p = some q from hq)).symm
        rw [show lv = [q] from hl, hqp, List.erase_cons_head]
    cases sc with
    | nil => exact ⟨Or.inl herase, fun q hq => Option.noConfusion hq⟩
    | cons b1 bs => exact ⟨Or.inl herase, fun q hq => Option.noConfusion hq⟩

/-- Every public operation preserves the lifecycle invariant. -/
theorem inv_runOp (o : MOp) {w : W} (h : Inv w) : Inv (runOp o w).2 := by
  cases o with
  | analyze => exact inv_engineCall h
  | bestMove => exact inv_engineCall h
  | topMoves => exact inv_engineCall h
  | closeOp => exact inv_close h

/-- Every call sequence preserves the lifecycle invariant. -/
theorem inv_runSeq (ops : List MOp) {w : W} (h : Inv w) : Inv (runSeq ops w) := by
  induction ops generalizing w with
  | nil => exact h
  | cons o os ih => exact ih (inv_runOp o h)

/-- The initial state satisfies the lifecycle invariant. -/
theorem inv_init (script : List Bool) : Inv (init script) :=
  ⟨Or.inl rfl, fun _ hp => Option.noConfusion hp⟩

/-- C1: along every sequence of public manager operations, driven by every
schedule of engine-interaction outcomes, the set of live engine processes
never holds more than one element, and every live process is the one the
manager currently holds — so no restart path leaves a previously-held
process alive. -/
theorem c1_at_most_one_live_process (ops : List MOp) (script : List Bool) :
    ((runSeq ops (init script)).live).length ≤ 1 ∧
    (∀ p q, (runSeq ops (init script)).engine = some p →
      q ∈ (runSeq ops (init script)).live → q = p) := by
  have h := inv_runSeq ops (inv_init script)
  constructor
  · rcases h.1 with h1 | ⟨p, _, hl⟩
    · rw [h1]; decide
    · rw [hl]; simp
  · intro p q hp hq
    rcases h.1 with h1 | ⟨r, hr, hl⟩
    · rw [h1] at hq
      exact absurd hq (List.not_mem_nil q)
    · rw [hl] at hq
      have hqr : q = r := List.mem_singleton.mp hq
      rw [hp] at hr
      have hpr : p = r := Option.some.inj hr
      rw [hqr, hpr]

/-- Witness for C1 at a concrete run: one analysis call from a fresh manager
with an all-success schedule, which ends holding process 0 with live = [0]. -/
theorem c1_witness :
    ((runSeq [MOp.analyze] (init [])).live).length ≤ 1 ∧ (0 : Nat) = 0 :=
  ⟨(c1_at_most_one_live_process [MOp.analyze] []).1,
   (c1_at_most_one_live_process [MOp.analyze] []).2 0 0 (by decide) (by decide)⟩

/-- C2: for each of the three analysis operations, from a running manager
holding process p, a schedule in which the pre-call probe succeeds and the
search itself faults leads to exactly one restart (one new spawn, pid n) and
exactly one retried search (two searches total): if the retry succeeds the
call returns normally, and if the retry also faults the call returns the
error to the caller with no further spawn, search, or schedule consumption —
so no loop. -/
theorem c2_search_fault_restarts_and_retries_once (p n : Nat) (rest : List Bool) :
    analyze_position (runningW p n ([true, false, true, true, true] ++ rest))
      = (.ok (), ⟨some n, false, n + 1, [n], rest, 1, 2, 2⟩) ∧
    analyze_position (runningW p n ([true, false, true, true, false] ++ rest))
      = (.err, ⟨some n, false, n + 1, [], rest, 1, 2, 2⟩) ∧
    get_best_move (runningW p n ([true, false, true, true, true] ++ rest))
      = (.ok (), ⟨some n, false, n + 1, [n], rest, 1, 2, 2⟩) ∧
    get_best_move (runningW p n ([true, false, true, true, false] ++ rest))
      = (.err, ⟨some n, false, n + 1, [], rest, 1, 2, 2⟩) ∧
    get_top_moves (runningW p n ([true, false, true, true, true] ++ rest))
      = (.ok (), ⟨some n, false, n + 1, [n], rest, 1, 2, 2⟩) ∧
    get_top_moves (runningW p n ([true, false, true, true, false] ++ rest))
      = (.err, ⟨some n, false, n + 1, [], rest, 1, 2, 2⟩) := by
  refine ⟨?_, ?_, ?_, ?_, ?_, ?_⟩ <;>
    simp [analyze_position, get_best_move, get_top_moves, engineCall, ensure_engine,
      restart_engine_if_needed, searchPrim, pingPrim, spawnPrim, interact, takeOutcome,
      runningW, List.erase_cons_head]

/-- C7 counterexample: a concrete run refuting terminality of close. After an
analysis call and then close, the handle is cleared and no process is live
and one spawn has happened; the very next analysis call on the same instance
spawns a second engine process, performs the query successfully, and leaves
process 1 live — so an operation after close does spawn a new engine process
again. -/
theorem c7_counterexample :
    (runSeq [MOp.analyze, MOp.closeOp] (init [])).engine = none ∧
    (runSeq [MOp.analyze, MOp.closeOp] (init [])).spawnCount = 1 ∧
    (runSeq [MOp.analyze, MOp.closeOp] (init [])).live = [] ∧
    (runOp MOp.analyze (runSeq [MOp.analyze, MOp.closeOp] (init []))).1 = .ok () ∧
    (runOp MOp.analyze (runSeq [MOp.analyze, MOp.closeOp] (init []))).2.spawnCount = 2 ∧
    (runOp MOp.analyze (runSeq [MOp.analyze, MOp.closeOp] (init []))).2.live = [1] := by
  decide

/-- C7 amended: close always returns normally with the handle cleared, but
the closed state is not terminal: because _ensure_engine re-spawns on a None
handle, the next operation on the same instance lazily starts a fresh engine
process and performs its query, as the concrete post-close run shows. -/
theorem c7_close_clears_handle_but_is_not_terminal (w : W) :
    ((close w).2.engine = none ∧ (close w).1 = .ok ()) ∧
    ((runOp MOp.analyze (runSeq [MOp.analyze, MOp.closeOp] (init []))).2.spawnCount = 2 ∧
      (runOp MOp.analyze (runSeq [MOp.analyze, MOp.closeOp] (init []))).1 = .ok ()) := by
  constructor
  · obtain ⟨e, fr, np, lv, sc, a, b, c⟩ := w
    cases e with
    | none => exact ⟨rfl, rfl⟩
    | some p =>
      cases sc with
      | nil => exact ⟨rfl, rfl⟩
      | cons b1 bs => exact ⟨rfl, rfl⟩
  · exact ⟨by decide, by decide⟩

end StockfishManager

/-- C3 evaluation at the failing inputs: FenValidator.validate accepts each
position string whose only defect is a side-to-move token other than w or b,
a duplicated castling right, a non-integer halfmove counter, a non-piece
board character, or two kings of one colour — the source method runs no
side-to-move, castling, move-counter, piece-character or king-count check,
although the repository's own test suite asserts each of those rejections. -/
theorem c3_validate_accepts_the_five_undetected_defects :
    FenValidator.validate fenBadColor = .ok ∧
    FenValidator.validate fenDupCastling = .ok ∧
    FenValidator.validate fenBadCounter = .ok ∧
    FenValidator.validate fenBadPiece = .ok ∧
    FenValidator.validate fenTwoKings = .ok := by
  refine ⟨?_, ?_, ?_, ?_, ?_⟩ <;> decide

/-- C4 evaluation: on a FEN whose en passant field is the single character a,
is_valid propagates an IndexError instead of returning a boolean, because
_validate_en_passent_rank indexes position 1 unguarded and is_valid catches
only FenValidationError; on the starting position is_valid returns true. -/
theorem c4_is_valid_raises_index_error :
    FenValidator.is_valid fenShortEp = .error "IndexError" ∧
    FenValidator.is_valid fenStart = .ok true :=
  ⟨rfl, rfl⟩

/-- C5 evaluation: get_validation_errors returns None for every input — never
a list, so neither the empty list on a valid position nor a non-empty list of
violation descriptions on an invalid one, although the repository's test
suite asserts a list result. -/
theorem c5_get_validation_errors_is_none (fen : PyStr) :
    FenValidator.get_validation_errors fen = none := rfl

/-- C6 counterexample: a malformed position string passed to the
analyze_position tool escapes as an uncaught exception — the outcome is
neither a success payload nor a structured error value — because
chess.Board(fen) runs outside any try/except in that tool. -/
theorem c6_counterexample :
    Server.handled (Server.analyze_position toyLib toyManagerOk st0 "bad").1 = false ∧
    (Server.analyze_position toyLib toyManagerOk st0 "bad").1 = .raised "parse error" :=
  ⟨rfl, rfl⟩

/-- C6 amended: the validator tool and the three game tools always return a
success payload or a structured error value, but each of the three analysis
tools propagates a position-parse failure (and likewise any engine failure)
as an uncaught exception. -/
theorem c6_game_tools_handled_analysis_tools_raise {B M : Type}
    (lib : ChessLib B M) (mgr : B → Except String String)
    (st : Server.ServerState B M) (mv s fen : String) (d cnt : Int)
    (ofen : Option String) :
    Server.handled (Server.fen_validator lib st fen).1 = true ∧
    Server.handled (Server.start_game lib st s d ofen).1 = true ∧
    Server.handled (Server.make_move lib st mv).1 = true ∧
    Server.handled (Server.record_opponent_move lib st mv).1 = true ∧
    (∀ e, lib.parseFen fen = .error e →
      (Server.analyze_position lib mgr st fen).1 = .raised e ∧
      (Server.get_best_move lib mgr st fen).1 = .raised e ∧
      (Server.get_top_moves lib mgr st fen cnt).1 = .raised e) := by
  refine ⟨?_, ?_, ?_, ?_, ?_⟩
  · unfold Server.fen_validator
    split <;> rfl
  · unfold Server.start_game
    split <;> rfl
  · unfold Server.make_move
    split
    · rfl
    · split
      · rfl
      · split <;> rfl
  · unfold Server.record_opponent_move
    split
    · rfl
    · split
      · rfl
      · split <;> rfl
  · intro e he
    unfold Server.analyze_position Server.get_best_move Server.get_top_moves
    rw [he]
    exact ⟨rfl, rfl, rfl⟩

/-- Witness for the C6 amended statement at concrete inputs: the validator
tool handles the bad position, while all three analysis tools raise on it. -/
theorem c6_amended_witness :
    Server.handled (Server.fen_validator toyLib st0 "bad").1 = true ∧
    (Server.analyze_position toyLib toyManagerOk st0 "bad").1 = .raised "parse error" ∧
    (Server.get_best_move toyLib toyManagerOk st0 "bad").1 = .raised "parse error" ∧
    (Server.get_top_moves toyLib toyManagerOk st0 "bad" 5).1 = .raised "parse error" := by
  have T := c6_game_tools_handled_analysis_tools_raise toyLib toyManagerOk st0
    "e2e4" "purple" "bad" 10 5 none
  have hpe : toyLib.parseFen "bad" = .error "parse error" := rfl
  exact ⟨T.1, (T.2.2.2.2 "parse error" hpe).1, (T.2.2.2.2 "parse error" hpe).2.1,
    (T.2.2.2.2 "parse error" hpe).2.2⟩

/-- C8: applying a move that the rules library deems illegal on the current
board yields the illegal-move ValueError and no new state, so the caller's
board and move log are unchanged; applying a legal move yields exactly the
pushed board with exactly that one move appended to the log. -/
theorem c8_make_move_illegal_rejected_legal_appended {B M : Type}
    (lib : ChessLib B M) (g : GameState B M) (m : M) :
    (lib.is_legal g.board m = false →
      GameState.make_move lib g m = .error ("Invalid move: " ++ lib.uci m)) ∧
    (lib.is_legal g.board m = true →
      GameState.make_move lib g m
        = .ok ⟨lib.push g.board m, g.move_history ++ [m], g.ai_color, g.difficulty⟩) := by
  constructor
  · intro h
    unfold GameState.make_move
    rw [h]
    rfl
  · intro h
    unfold GameState.make_move
    rw [h]
    rfl

/-- Witness for C8 at concrete inputs over the concrete library: the
designated illegal move is rejected, a legal move advances the board and
grows the log by one. -/
theorem c8_witness :
    GameState.make_move toyLib g0 "e2e5" = .error ("Invalid move: " ++ toyLib.uci "e2e5") ∧
    GameState.make_move toyLib g0 "e2e4"
      = .ok ⟨toyLib.push g0.board "e2e4", g0.move_history ++ ["e2e4"],
             g0.ai_color, g0.difficulty⟩ :=
  ⟨(c8_make_move_illegal_rejected_legal_appended toyLib g0 "e2e5").1 (by decide),
   (c8_make_move_illegal_rejected_legal_appended toyLib g0 "e2e4").2 (by decide)⟩

/-- C9: when no game has ever been started, both move tools return exactly
the structured no-active-game error payload and leave the server state
unchanged; neither raises nor creates a game. -/
theorem c9_no_active_game_is_structured_error {B M : Type} (lib : ChessLib B M)
    (st : Server.ServerState B M) (mv : String) (h : st.current_game = none) :
    Server.make_move lib st mv
      = (.errPayload "No active game. Start a game first.", st) ∧
    Server.record_opponent_move lib st mv
      = (.errPayload "No active game. Start a game first.", st) := by
  unfold Server.make_move Server.record_opponent_move
  rw [h]
  exact ⟨rfl, rfl⟩

/-- Witness for C9: the fresh server state with no game, at a concrete move. -/
theorem c9_witness :
    Server.make_move toyLib st0 "e2e4"
      = (.errPayload "No active game. Start a game first.", st0) ∧
    Server.record_opponent_move toyLib st0 "e2e4"
      = (.errPayload "No active game. Start a game first.", st0) :=
  c9_no_active_game_is_structured_error toyLib st0 "e2e4" rfl

/-- C10: any ai_color string whose lowered form is not black — purple
included — starts a game successfully with the engine assigned white; the
tool has no rejection path for unrecognized side names. -/
theorem c10_unrecognized_color_defaults_to_white {B M : Type} (lib : ChessLib B M)
    (st : Server.ServerState B M) (s : String) (d : Int)
    (h : pyLower s ≠ "black") :
    Server.start_game lib st s d none
      = (.ok ("Game started, ai_color " ++ s),
         ⟨some ⟨lib.defaultBoard, [], WHITE, d⟩⟩) := by
  unfold Server.start_game
  rw [if_neg h]
  rfl

/-- Witness for C10: starting a game with the side name purple succeeds and
assigns the engine white. -/
theorem c10_witness :
    Server.start_game toyLib st0 "purple" 10 none
      = (.ok ("Game started, ai_color " ++ "purple"),
         ⟨some ⟨toyLib.defaultBoard, [], WHITE, 10⟩⟩) :=
  c10_unrecognized_color_defaults_to_white toyLib st0 "purple" 10 (by decide)

end StockfishMcp
